import Mathlib

/-!
Verification of the Website Content Analyzer repository
(`website_analyzer.py`, free functions; `website_analyzer2.py`, the
`WebsiteAnalyzer` class) against its natural-language specification.

The development shallowly embeds the extraction pipeline:
* URL reference resolution as delegated to `urllib.parse`
  (`urljoin` / `urlparse`; the `params` component, split at `';'` in the
  last path segment by `urlparse`, is kept inside the path here — this is
  behaviour-identical for every URL not containing `';'` in its last path
  segment, and no statement below involves `';'`),
* the parsed HTML document (BeautifulSoup's tag tree, restricted to the
  queries the analyzer uses: find-all-by-tag, find-first-by-tag,
  attribute lookup and `get_text`),
* the extractor functions of both source files, including both variants
  of `extract_images_info` (which differ in how relative `src` values
  are resolved),
* the orchestrating `analyze_website` with the network fetch modelled as
  the `Option` result `fetch_html` hands it.

Strings are Lean `String`s; all parsing is done on their `.data`
character lists.
-/

/-! ## Python string helpers -/

/-- ASCII whitespace, the characters `str.strip()` / `str.split()` remove
(the unicode space classes Python additionally strips never occur in any
statement below). -/
def isPySpace (c : Char) : Bool :=
  c = ' ' ∨ c = '\t' ∨ c = '\n' ∨ c = '\r' ∨ c = '\x0b' ∨ c = '\x0c'

/-- `str.strip()` on a character list: drop whitespace from both ends. -/
def pyStripL (l : List Char) : List Char :=
  ((l.dropWhile isPySpace).reverse.dropWhile isPySpace).reverse

/-- `str.strip()`. -/
def pyStrip (s : String) : String := ⟨pyStripL s.data⟩

/-- `str.startswith(pre)`. -/
def pyStartsWith (s pre : String) : Bool := pre.data.isPrefixOf s.data

/-- `str.endswith(suf)`. -/
def pyEndsWith (s suf : String) : Bool := suf.data.isSuffixOf s.data

/-- `str.split(sep)` for a one-character separator: splitting never drops
empty pieces, `"".split(c) == [""]`. -/
def splitOnPred (p : Char → Bool) : List Char → List (List Char)
  | [] => [[]]
  | c :: rest =>
    if p c then [] :: splitOnPred p rest
    else
      match splitOnPred p rest with
      | [] => [[c]]
      | s :: ss => (c :: s) :: ss

/-- `str.split()` with no argument: split on whitespace runs, dropping
empty pieces (so `"".split() == []`). -/
def pyWords (l : List Char) : List (List Char) :=
  (splitOnPred isPySpace l).filter (fun w => decide (w ≠ []))

/-- `len(text.split())`, the analyzer's word count. -/
def countWords (s : String) : Nat := (pyWords s.data).length

/-! ## URL model: `urllib.parse.urlsplit` / `urlunsplit` / `urljoin`

`urlparse`/`urlunparse` as called by `urljoin` only differ from
`urlsplit`/`urlunsplit` in splitting `params` off the path, which is
re-attached verbatim on recomposition; the path below keeps it inline. -/

/-- The five components `urlsplit` produces (with `params` kept inside
`path`, see the module comment). -/
structure UrlParts where
  scheme : String
  netloc : String
  path : String
  query : String
  fragment : String
deriving Repr, DecidableEq

/-- Split a character list at the first character satisfying `stop`:
returns the stop-free prefix and the remainder (which starts with a stop
character when nonempty). -/
def breakAt (stop : Char → Bool) : List Char → List Char × List Char
  | [] => ([], [])
  | c :: rest =>
    if stop c then ([], c :: rest)
    else
      let r := breakAt stop rest
      (c :: r.1, r.2)

/-- A character allowed in a URL scheme after the first (letters, digits,
`+`, `-`, `.`), as in `urllib.parse.scheme_chars`. -/
def isSchemeChar (c : Char) : Bool :=
  c.isAlpha || c.isDigit || c = '+' || c = '-' || c = '.'

/-- The scheme detection step of `urlsplit(url, scheme=default)`: a valid
scheme before the first `':'` (nonempty, starting with a letter, all
scheme characters) is removed and lowercased, otherwise the default
applies and the input is left whole. -/
def schemeSplit (l : List Char) (default : String) : String × List Char :=
  let pr := breakAt (fun c => decide (c = ':')) l
  match pr.2 with
  | [] => (default, l)
  | _ :: rest =>
    if pr.1 ≠ [] ∧ (pr.1.headD ' ').isAlpha = true ∧ pr.1.all isSchemeChar = true then
      (⟨pr.1.map Char.toLower⟩, rest)
    else (default, l)

/-- The netloc step of `urlsplit`: after `'//'`, the netloc extends to the
first `'/'`, `'?'` or `'#'`. -/
def netlocSplit (l : List Char) : String × List Char :=
  match l with
  | '/' :: '/' :: rest =>
    let pr := breakAt (fun c => decide (c = '/' ∨ c = '?' ∨ c = '#')) rest
    (⟨pr.1⟩, pr.2)
  | _ => ("", l)

/-- The fragment step of `urlsplit`: split at the first `'#'`. -/
def fragSplit (l : List Char) : List Char × String :=
  let pr := breakAt (fun c => decide (c = '#')) l
  match pr.2 with
  | [] => (pr.1, "")
  | _ :: rest => (pr.1, ⟨rest⟩)

/-- The query step of `urlsplit`: split at the first `'?'`. -/
def querySplit (l : List Char) : List Char × String :=
  let pr := breakAt (fun c => decide (c = '?')) l
  match pr.2 with
  | [] => (pr.1, "")
  | _ :: rest => (pr.1, ⟨rest⟩)

/-- A WHATWG C0 control character or space (codepoint at most `0x20`),
which `urlsplit` strips from the front of the URL
(`_WHATWG_C0_CONTROL_OR_SPACE`). -/
def isC0OrSpace (c : Char) : Bool := decide (c.toNat ≤ 32)

/-- One of `urllib.parse._UNSAFE_URL_BYTES_TO_REMOVE` — tab, CR, LF —
which `urlsplit` deletes from the URL wherever they occur (CPython
security fix bpo-43882, in every patched CPython since 2021). -/
def isUnsafeUrlByte (c : Char) : Bool :=
  decide (c = '\t' ∨ c = '\r' ∨ c = '\n')

/-- The input sanitation `urlsplit` applies before parsing: strip leading
C0 controls and spaces, then delete every tab, CR and LF. -/
def sanitizeUrl (l : List Char) : List Char :=
  (l.dropWhile isC0OrSpace).filter (fun c => !isUnsafeUrlByte c)

/-- `urllib.parse.urlsplit(url, scheme=default)` (fragments allowed, the
analyzer never disables them). The same sanitation `urlsplit` applies to
the `scheme` argument is omitted: every default this development passes
is either `""` or the scheme component of a previous `urlsplitH` result
(empty, or lowercase scheme characters), on which that sanitation is the
identity. -/
def urlsplitH (url : String) (default : String) : UrlParts :=
  let s1 := schemeSplit (sanitizeUrl url.data) default
  let s2 := netlocSplit s1.2
  let s3 := fragSplit s2.2
  let s4 := querySplit s3.1
  ⟨s1.1, s2.1, ⟨s4.1⟩, s4.2, s3.2⟩

/-- `url[:1] == '/'`: the first character exists and is `'/'`. -/
def startsWithSlash (l : List Char) : Bool :=
  decide (l.headD ' ' = '/')

/-- `url[:2] == '//'`. -/
def startsWithSlashSlash (l : List Char) : Bool :=
  match l with
  | '/' :: '/' :: _ => true
  | _ => false

/-- `urllib.parse.urlunsplit`. -/
def urlunsplitH (u : UrlParts) : String :=
  let url := u.path.data
  let url :=
    if u.netloc ≠ "" ∨ startsWithSlashSlash u.path.data = true then
      '/' :: '/' :: (u.netloc.data ++
        (if url ≠ [] ∧ startsWithSlash url = false then '/' :: url else url))
    else url
  let url := if u.scheme ≠ "" then u.scheme.data ++ ':' :: url else url
  let url := if u.query ≠ "" then url ++ '?' :: u.query.data else url
  let url := if u.fragment ≠ "" then url ++ '#' :: u.fragment.data else url
  ⟨url⟩

/-- `urllib.parse.uses_relative`. -/
def usesRelative (s : String) : Bool :=
  s ∈ ["", "ftp", "http", "gopher", "nntp", "imap", "wais", "file", "https",
       "shttp", "mms", "prospero", "rtsp", "rtspu", "sftp", "svn", "svn+ssh",
       "ws", "wss"]

/-- `urllib.parse.uses_netloc`. -/
def usesNetloc (s : String) : Bool :=
  s ∈ ["", "ftp", "http", "gopher", "nntp", "telnet", "imap", "wais", "file",
       "mms", "https", "shttp", "snews", "prospero", "rtsp", "rtspu", "rsync",
       "svn", "svn+ssh", "sftp", "nfs", "git", "git+ssh", "ws", "wss",
       "itms-services"]

/-- The `segments[1:-1] = filter(None, segments[1:-1])` step of `urljoin`:
drop empty segments strictly between the first and the last. -/
def keepLastFilter : List (List Char) → List (List Char)
  | [] => []
  | [b] => [b]
  | b :: c :: rest =>
    if b = [] then keepLastFilter (c :: rest) else b :: keepLastFilter (c :: rest)

/-- Apply `keepLastFilter` to everything after the first segment. -/
def filterMiddle : List (List Char) → List (List Char)
  | [] => []
  | [a] => [a]
  | a :: b :: rest => a :: keepLastFilter (b :: rest)

/-- The dot-segment elimination loop of `urljoin`. -/
def resolveSegments (segments : List (List Char)) : List (List Char) :=
  segments.foldl
    (fun acc seg =>
      if seg = ['.', '.'] then acc.dropLast
      else if seg = ['.'] then acc
      else acc ++ [seg])
    []

/-- `urllib.parse.urljoin(base, url)`, as the analyzer calls it on `http`
/`https` base URLs. -/
def urljoinH (base url : String) : String :=
  if base = "" then url
  else if url = "" then base
  else
    let b := urlsplitH base ""
    let u := urlsplitH url b.scheme
    if u.scheme ≠ b.scheme ∨ usesRelative u.scheme = false then url
    else if usesNetloc u.scheme = true ∧ u.netloc ≠ "" then urlunsplitH u
    else
      let netloc := if usesNetloc u.scheme then b.netloc else u.netloc
      if u.path = "" then
        urlunsplitH ⟨u.scheme, netloc, b.path,
          (if u.query = "" then b.query else u.query), u.fragment⟩
      else
        let baseParts := splitOnPred (fun c => decide (c = '/')) b.path.data
        let baseParts :=
          if baseParts.getLast? = some [] then baseParts else baseParts.dropLast
        let segments :=
          if startsWithSlash u.path.data then
            splitOnPred (fun c => decide (c = '/')) u.path.data
          else
            filterMiddle (baseParts ++ splitOnPred (fun c => decide (c = '/')) u.path.data)
        let resolved := resolveSegments segments
        let resolved :=
          if segments.getLast? = some ['.'] ∨ segments.getLast? = some ['.', '.'] then
            resolved ++ [[]]
          else resolved
        let joined := List.intercalate ['/'] resolved
        urlunsplitH ⟨u.scheme, netloc, ⟨if joined = [] then ['/'] else joined⟩,
          u.query, u.fragment⟩

/-! ## Parsed HTML document model

BeautifulSoup's tag tree, restricted to what the analyzer queries:
elements carry a tag name and an attribute dictionary (first occurrence
wins for duplicate attribute names, as in `html.parser`); text nodes
carry their string. `find_all` / `find` traverse in document order
(preorder). -/

/-- A node of the parsed document tree. -/
inductive Node where
  | elem (tag : String) (attrs : List (String × String)) (children : List Node)
  | text (s : String)
deriving Repr

/-- A parsed document: the forest of top-level nodes. -/
abbrev Doc := List Node

mutual

/-- All nodes of a subtree in document order (preorder), the node itself
included. -/
def allNodes : Node → List Node
  | .text s => [.text s]
  | .elem t a cs => .elem t a cs :: allNodesList cs

/-- All nodes of a forest in document order. -/
def allNodesList : List Node → List Node
  | [] => []
  | n :: ns => allNodes n ++ allNodesList ns

end

mutual

/-- The strings of all text-node descendants, in document order
(BeautifulSoup's `strings` of a tag). -/
def textsOf : Node → List String
  | .text s => [s]
  | .elem _ _ cs => textsList cs

/-- The text-node strings of a forest, in document order. -/
def textsList : List Node → List String
  | [] => []
  | n :: ns => textsOf n ++ textsList ns

end

/-- `tag.get(name)`: attribute lookup, `none` when absent. -/
def Node.attr? (n : Node) (key : String) : Option String :=
  match n with
  | .elem _ attrs _ => attrs.lookup key
  | .text _ => none

/-- The children of a node (empty for a text node). -/
def childrenOf : Node → List Node
  | .elem _ _ cs => cs
  | .text _ => []

/-- Whether a node is an element with the given tag name. -/
def isTagElem (tag : String) (n : Node) : Bool :=
  match n with
  | .elem t _ _ => decide (t = tag)
  | .text _ => false

/-- `soup.find_all(tag)`: every element with that tag, in document order. -/
def findAllDoc (d : Doc) (tag : String) : List Node :=
  (allNodesList d).filter (isTagElem tag)

/-- `soup.find(tag)`: the first element with that tag in document order. -/
def findFirstDoc (d : Doc) (tag : String) : Option Node :=
  (allNodesList d).find? (isTagElem tag)

/-- `element.get_text(separator=sep, strip=True)`: each descendant string
stripped, empty results skipped, the rest joined with `sep`. -/
def getText (n : Node) (sep : String) : String :=
  String.intercalate sep (((textsOf n).map pyStrip).filter (fun s => decide (s ≠ "")))

/-! ## Extractors

Both source files implement the same `extract_headings`,
`extract_links_info` and `extract_meta_tags` (the class-based file only
restates them with comprehensions); `extract_images_info` differs
between the files and is embedded twice. -/

/-- The `for heading in soup.find_all(tag): ... if text:` loop of
`extract_headings`. -/
def collectTexts : List Node → List String
  | [] => []
  | h :: t =>
    let s := getText h ""
    if s ≠ "" then s :: collectTexts t else collectTexts t

/-- `extract_headings(soup)`: for each of `h1` … `h6` the nonempty
stripped texts of that tag's elements, in document order. -/
def extract_headings (d : Doc) : List (String × List String) :=
  [1, 2, 3, 4, 5, 6].map (fun i =>
    let tag := "h" ++ toString i
    (tag, collectTexts (findAllDoc d tag)))

/-- One record of `images_info`. -/
structure ImageRecord where
  src : Option String
  alt : String
  width : Option String
  height : Option String
deriving Repr, DecidableEq

/-- The `src` transformation of `website_analyzer.py`: a truthy `src` not
starting with `http://`, `https://` or `//` is concatenated onto a
`/`-terminated base, and otherwise resolved with `urljoin`. -/
def resolveImgSrc1 (base src : String) : String :=
  if src ≠ "" ∧
      (pyStartsWith src "http://" || pyStartsWith src "https://" ||
        pyStartsWith src "//") = false then
    (if pyEndsWith base "/" then base ++ src else urljoinH base src)
  else src

/-- The `src` transformation of `website_analyzer2.py`: a truthy `src` not
starting with `http://`, `https://` or `//` is resolved with `urljoin`. -/
def resolveImgSrc2 (base src : String) : String :=
  if src ≠ "" ∧
      (pyStartsWith src "http://" || pyStartsWith src "https://" ||
        pyStartsWith src "//") = false then
    urljoinH base src
  else src

/-- One loop iteration of `extract_images_info` in `website_analyzer.py`. -/
def imageRecord1 (base : String) (n : Node) : ImageRecord :=
  { src := (n.attr? "src").map (resolveImgSrc1 base)
    alt := (n.attr? "alt").getD ""
    width := n.attr? "width"
    height := n.attr? "height" }

/-- One loop iteration of `extract_images_info` in `website_analyzer2.py`. -/
def imageRecord2 (base : String) (n : Node) : ImageRecord :=
  { src := (n.attr? "src").map (resolveImgSrc2 base)
    alt := (n.attr? "alt").getD ""
    width := n.attr? "width"
    height := n.attr? "height" }

/-- The `images_info.append(...)` loop of `website_analyzer.py`. -/
def imagesLoop1 (base : String) : List Node → List ImageRecord
  | [] => []
  | img :: rest => imageRecord1 base img :: imagesLoop1 base rest

/-- The `images_info.append(...)` loop of `website_analyzer2.py`. -/
def imagesLoop2 (base : String) : List Node → List ImageRecord
  | [] => []
  | img :: rest => imageRecord2 base img :: imagesLoop2 base rest

/-- `extract_images_info(soup, base_url)` of `website_analyzer.py`:
`(images_info, len(image_tags))`. -/
def extract_images_info1 (d : Doc) (base : String) : List ImageRecord × Nat :=
  let image_tags := findAllDoc d "img"
  (imagesLoop1 base image_tags, image_tags.length)

/-- `WebsiteAnalyzer.extract_images_info(soup, base_url)` of
`website_analyzer2.py`. -/
def extract_images_info2 (d : Doc) (base : String) : List ImageRecord × Nat :=
  let image_tags := findAllDoc d "img"
  (imagesLoop2 base image_tags, image_tags.length)

/-- One record of `links_info`. -/
structure LinkRecord where
  href : String
  text : String
deriving Repr, DecidableEq

/-- The result dictionary of `extract_links_info`. -/
structure LinkSummary where
  total_links : Nat
  internal_links : List LinkRecord
  external_links : List LinkRecord
  internal_count : Nat
  external_count : Nat
deriving Repr, DecidableEq

/-- `soup.find_all('a', href=True)`: the `<a>` elements carrying an
`href`, in document order. -/
def consideredLinks (d : Doc) : List Node :=
  (findAllDoc d "a").filter (fun n => (n.attr? "href").isSome)

/-- `{'href': urljoin(base_url, a_tag['href'].strip()), 'text':
a_tag.get_text(strip=True)}`. -/
def linkRecordOf (base : String) (n : Node) : LinkRecord :=
  { href := urljoinH base (pyStrip ((n.attr? "href").getD ""))
    text := getText n "" }

/-- `urlparse(full_href).netloc == urlparse(base_url).netloc`, the
internal/external test. -/
def linkIsInternal (base : String) (r : LinkRecord) : Bool :=
  decide ((urlsplitH r.href "").netloc = (urlsplitH base "").netloc)

/-- The classification loop of `extract_links_info`, building the lists
and counters in document order. -/
def linksLoop (base : String) : List Node → LinkSummary
  | [] => ⟨0, [], [], 0, 0⟩
  | n :: rest =>
    let r := linkRecordOf base n
    let s := linksLoop base rest
    if linkIsInternal base r then
      ⟨s.total_links + 1, r :: s.internal_links, s.external_links,
        s.internal_count + 1, s.external_count⟩
    else
      ⟨s.total_links + 1, s.internal_links, r :: s.external_links,
        s.internal_count, s.external_count + 1⟩

/-- `extract_links_info(soup, base_url)` (identical in both files). -/
def extract_links_info (d : Doc) (base : String) : LinkSummary :=
  linksLoop base (consideredLinks d)

/-- `dict` assignment `meta_info[k] = v`: overwrite in place if the key
exists, else append (Python dicts keep first-insertion order). -/
def upsert (k : String) (v : Option String) :
    List (String × Option String) → List (String × Option String)
  | [] => [(k, v)]
  | (k', v') :: rest =>
    if k' = k then (k, v) :: rest else (k', v') :: upsert k v rest

/-- The key a `<meta>` element contributes: its `name` attribute when that
is present and nonempty (Python truthiness of `meta.get('name')`), else
its `property` attribute under the same test, else nothing. -/
def metaKey (n : Node) : Option String :=
  match n.attr? "name" with
  | some nm => if nm ≠ "" then some nm else
      match n.attr? "property" with
      | some p => if p ≠ "" then some p else none
      | none => none
  | none =>
      match n.attr? "property" with
      | some p => if p ≠ "" then some p else none
      | none => none

/-- The `for meta in soup.find_all('meta')` loop: each keyed element
stores its `content` attribute (possibly `None`) under its key. -/
def processMetas (ms : List Node) : List (String × Option String) :=
  ms.foldl
    (fun d m =>
      match metaKey m with
      | some k => upsert k (m.attr? "content") d
      | none => d)
    []

/-- `extract_meta_tags(soup)` (identical in both files): the meta loop,
then `meta_info['title']` set to the stripped text of the first `<title>`
element when one exists. -/
def extract_meta_tags (d : Doc) : List (String × Option String) :=
  let meta_info := processMetas (findAllDoc d "meta")
  match findFirstDoc d "title" with
  | some t => upsert "title" (some (getText t "")) meta_info
  | none => meta_info

/-! ## Content metrics and the orchestrating `analyze_website` -/

/-- Whether `soup.find_all('link', rel='stylesheet')` matches a node:
`rel` is a multi-valued attribute under `html.parser`, so the match
succeeds when `stylesheet` is one of its whitespace-separated tokens. -/
def isStylesheetLink (n : Node) : Bool :=
  match n with
  | .elem t attrs _ =>
    decide (t = "link") &&
      (match attrs.lookup "rel" with
       | some v => (pyWords v.data).contains "stylesheet".data
       | none => false)
  | .text _ => false

/-- `len(soup.find_all('link', rel='stylesheet'))`. -/
def stylesheetCount (d : Doc) : Nat :=
  ((allNodesList d).filter isStylesheetLink).length

/-- `len(soup.find_all('script', src=True))`: only elements carrying a
`src` attribute count. -/
def scriptCount (d : Doc) : Nat :=
  ((allNodesList d).filter (fun n =>
    match n with
    | .elem t attrs _ => decide (t = "script") && (attrs.lookup "src").isSome
    | .text _ => false)).length

/-- The body-dependent metrics: `0` for both when `soup.find('body')` is
`None`, else the word count of `body.get_text(separator=' ',
strip=True)` and `len(body.find_all('p'))`. -/
def bodyMetrics (d : Doc) : Nat × Nat :=
  match findFirstDoc d "body" with
  | none => (0, 0)
  | some b =>
    (countWords (getText b " "),
      ((allNodesList (childrenOf b)).filter (isTagElem "p")).length)

/-- The populated variant of the analysis result assembled from a
successfully parsed document. -/
structure AnalysisData where
  url : String
  headings : List (String × List String)
  links : LinkSummary
  meta_tags : List (String × Option String)
  total_images : Nat
  image_details : List ImageRecord
  word_count : Nat
  paragraph_count : Nat
  stylesheet_count : Nat
  script_count : Nat
deriving Repr, DecidableEq

/-- The success path of `analyze_website` in `website_analyzer.py`. -/
def analyzeDoc1 (url : String) (d : Doc) : AnalysisData :=
  let imgs := extract_images_info1 d url
  let wp := bodyMetrics d
  { url := url
    headings := extract_headings d
    links := extract_links_info d url
    meta_tags := extract_meta_tags d
    total_images := imgs.2
    image_details := imgs.1
    word_count := wp.1
    paragraph_count := wp.2
    stylesheet_count := stylesheetCount d
    script_count := scriptCount d }

/-- The success path of `WebsiteAnalyzer.analyze_website` in
`website_analyzer2.py`. -/
def analyzeDoc2 (url : String) (d : Doc) : AnalysisData :=
  let imgs := extract_images_info2 d url
  let wp := bodyMetrics d
  { url := url
    headings := extract_headings d
    links := extract_links_info d url
    meta_tags := extract_meta_tags d
    total_images := imgs.2
    image_details := imgs.1
    word_count := wp.1
    paragraph_count := wp.2
    stylesheet_count := stylesheetCount d
    script_count := scriptCount d }

/-- `analyze_website`'s result: either the failure marker dictionary
`{'error': ...}` or the populated record — the source never mixes the
two shapes, which the disjoint constructors capture. -/
inductive AnalysisResult where
  | error (msg : String)
  | ok (data : AnalysisData)
deriving Repr, DecidableEq

/-- Whether a result is the failure marker (`"error" in results`). -/
def isErrorResult : AnalysisResult → Bool
  | .error _ => true
  | .ok _ => false

/-- Whether a result is the populated variant. -/
def isDataResult : AnalysisResult → Bool
  | .error _ => false
  | .ok _ => true

/-- `analyze_website(url)` of `website_analyzer.py`. `fetch_html` performs
network I/O and is out of the embedding's scope; `fetched` is the
`Optional[BeautifulSoup]` it returns (`none` on any fetch or parse
failure). -/
def analyze_website1 (fetched : Option Doc) (url : String) : AnalysisResult :=
  match fetched with
  | none => .error ("Could not fetch or parse " ++ url)
  | some d => .ok (analyzeDoc1 url d)

/-- `WebsiteAnalyzer.analyze_website(url)` of `website_analyzer2.py`,
with the fetch modelled the same way. -/
def analyze_website2 (fetched : Option Doc) (url : String) : AnalysisResult :=
  match fetched with
  | none => .error ("Could not fetch or parse " ++ url)
  | some d => .ok (analyzeDoc2 url d)

/-! ## Well-formed absolute URLs

The syntactic shape under which `urljoin` leaves an absolute `http`/
`https` URL unchanged: a nonempty authority free of `'/'`, `'?'`, `'#'`,
of the brackets that trigger `urlsplit`'s IPv6 checks, and ASCII-only
(so `_checknetloc`'s normalization check passes); a path that is empty
or `/`-rooted and free of `'?'`, `'#'`; a query free of `'#'`; and no
component containing a tab, CR or LF, which `urlsplit` deletes. A URL
of this shape carries no dangling empty `'?'`/`'#'` marker, which
`urlunparse` would drop. -/
def wfAbs (u : UrlParts) : Bool :=
  decide (u.scheme = "http" ∨ u.scheme = "https") &&
  decide (u.netloc ≠ "") &&
  u.netloc.data.all (fun c =>
    decide (c ≠ '/' ∧ c ≠ '?' ∧ c ≠ '#' ∧ c ≠ '[' ∧ c ≠ ']') &&
    decide (c.toNat ≤ 127) && !isUnsafeUrlByte c) &&
  (decide (u.path = "") || startsWithSlash u.path.data) &&
  u.path.data.all (fun c => decide (c ≠ '?' ∧ c ≠ '#') && !isUnsafeUrlByte c) &&
  u.query.data.all (fun c => decide (c ≠ '#') && !isUnsafeUrlByte c) &&
  u.fragment.data.all (fun c => !isUnsafeUrlByte c)

/-! ## Helper lemmas -/

theorem breakAt_cons_stop {stop : Char → Bool} {c : Char} (l : List Char)
    (h : stop c = true) : breakAt stop (c :: l) = ([], c :: l) := by
  simp [breakAt, h]

theorem breakAt_append_left {stop : Char → Bool} {l₁ : List Char} (l₂ : List Char)
    (h : ∀ c ∈ l₁, stop c = false) :
    breakAt stop (l₁ ++ l₂) = (l₁ ++ (breakAt stop l₂).1, (breakAt stop l₂).2) := by
  induction l₁ with
  | nil => simp
  | cons c rest ih =>
    have hc : stop c = false := h c (List.mem_cons_self c rest)
    have hrest : ∀ x ∈ rest, stop x = false := fun x hx => h x (List.mem_cons_of_mem c hx)
    simp [breakAt, hc, ih hrest]

theorem breakAt_nil {stop : Char → Bool} : breakAt stop [] = ([], []) := rfl

theorem breakAt_all_not {stop : Char → Bool} {l : List Char}
    (h : ∀ c ∈ l, stop c = false) : breakAt stop l = (l, []) := by
  have := @breakAt_append_left stop l [] h
  simpa [breakAt_nil] using this

theorem breakAt_append_stop {stop : Char → Bool} {l₁ l₂ : List Char}
    (h₁ : ∀ c ∈ l₁, stop c = false)
    (h₂ : l₂ = [] ∨ ∃ c t, l₂ = c :: t ∧ stop c = true) :
    breakAt stop (l₁ ++ l₂) = (l₁, l₂) := by
  rcases h₂ with rfl | ⟨c, t, rfl, hc⟩
  · simpa using breakAt_all_not h₁
  · rw [breakAt_append_left _ h₁, breakAt_cons_stop _ hc]; simp

theorem startsWithSlash_cons {l : List Char} (h : startsWithSlash l = true) :
    ∃ t, l = '/' :: t := by
  cases l with
  | nil => simp [startsWithSlash] at h
  | cons c t =>
    simp only [startsWithSlash, List.headD_cons, decide_eq_true_eq] at h
    exact ⟨t, by rw [h]⟩

theorem headD_append_of_ne_nil {a : List Char} (b : List Char) (x : Char)
    (h : a ≠ []) : (a ++ b).headD x = a.headD x := by
  cases a with
  | nil => exact absurd rfl h
  | cons c t => rfl

theorem sanitizeUrl_eq_self {l : List Char}
    (h1 : ∀ c ∈ l, isUnsafeUrlByte c = false)
    (h2 : isC0OrSpace (l.headD 'a') = false) :
    sanitizeUrl l = l := by
  have hd : l.dropWhile isC0OrSpace = l := by
    cases l with
    | nil => rfl
    | cons c t =>
      simp only [List.headD_cons] at h2
      simp [List.dropWhile_cons, h2]
  rw [sanitizeUrl, hd, List.filter_eq_self.mpr]
  intro a ha
  simp [h1 a ha]

theorem wfAbs_parts {u : UrlParts} (h : wfAbs u = true) :
    (u.scheme = "http" ∨ u.scheme = "https") ∧ u.netloc ≠ ""
    ∧ (∀ c ∈ u.netloc.data, c ≠ '/' ∧ c ≠ '?' ∧ c ≠ '#')
    ∧ (u.path = "" ∨ startsWithSlash u.path.data = true)
    ∧ (∀ c ∈ u.path.data, c ≠ '?' ∧ c ≠ '#')
    ∧ (∀ c ∈ u.query.data, c ≠ '#')
    ∧ (∀ c ∈ u.netloc.data, isUnsafeUrlByte c = false)
    ∧ (∀ c ∈ u.path.data, isUnsafeUrlByte c = false)
    ∧ (∀ c ∈ u.query.data, isUnsafeUrlByte c = false)
    ∧ (∀ c ∈ u.fragment.data, isUnsafeUrlByte c = false) := by
  simp only [wfAbs, Bool.and_eq_true, Bool.or_eq_true, decide_eq_true_eq,
    List.all_eq_true, Bool.not_eq_true'] at h
  obtain ⟨⟨⟨⟨⟨⟨h1, h2⟩, h3⟩, h4⟩, h5⟩, h6⟩, h7⟩ := h
  refine ⟨h1, h2, ?_, h4, ?_, ?_, ?_, ?_, ?_, h7⟩
  · intro c hc
    obtain ⟨⟨ha, -⟩, -⟩ := h3 c hc
    exact ⟨ha.1, ha.2.1, ha.2.2.1⟩
  · intro c hc
    exact (h5 c hc).1
  · intro c hc
    exact (h6 c hc).1
  · intro c hc
    exact (h3 c hc).2
  · intro c hc
    exact (h5 c hc).2
  · intro c hc
    exact (h6 c hc).2

theorem schemeSplit_of_valid (sc : String) (rest : List Char) (d : String)
    (h1 : ∀ c ∈ sc.data, c ≠ ':')
    (h2 : sc.data ≠ [])
    (h3 : (sc.data.headD ' ').isAlpha = true)
    (h4 : sc.data.all isSchemeChar = true)
    (h5 : sc.data.map Char.toLower = sc.data) :
    schemeSplit (sc.data ++ ':' :: rest) d = (sc, rest) := by
  have hb : breakAt (fun c => decide (c = ':')) (sc.data ++ ':' :: rest)
      = (sc.data, ':' :: rest) :=
    breakAt_append_stop (fun c hc => by simpa using h1 c hc)
      (Or.inr ⟨':', rest, rfl, by simp⟩)
  simp only [schemeSplit, hb]
  rw [if_pos ⟨h2, h3, h4⟩, h5]

theorem netlocSplit_netloc (nl : String) (l₂ : List Char)
    (h1 : ∀ c ∈ nl.data, c ≠ '/' ∧ c ≠ '?' ∧ c ≠ '#')
    (h2 : l₂ = [] ∨ ∃ c t, l₂ = c :: t ∧ (c = '/' ∨ c = '?' ∨ c = '#')) :
    netlocSplit ('/' :: '/' :: (nl.data ++ l₂)) = (nl, l₂) := by
  have hb : breakAt (fun c => decide (c = '/' ∨ c = '?' ∨ c = '#')) (nl.data ++ l₂)
      = (nl.data, l₂) := by
    refine breakAt_append_stop (fun c hc => ?_) ?_
    · have := h1 c hc
      simp only [decide_eq_false_iff_not]
      tauto
    · rcases h2 with rfl | ⟨c, t, rfl, hc⟩
      · exact Or.inl rfl
      · exact Or.inr ⟨c, t, rfl, by simpa using hc⟩
  simp only [netlocSplit, hb]

theorem fragSplit_split (p : List Char) (f : String)
    (hp : ∀ c ∈ p, c ≠ '#') :
    fragSplit (p ++ (if f = "" then [] else '#' :: f.data)) = (p, f) := by
  by_cases hf : f = ""
  · subst hf
    rw [if_pos rfl, List.append_nil]
    have hb : breakAt (fun c => decide (c = '#')) p = (p, []) :=
      breakAt_all_not (fun c hc => by simpa using hp c hc)
    simp only [fragSplit, hb]
  · rw [if_neg hf]
    have hb : breakAt (fun c => decide (c = '#')) (p ++ '#' :: f.data)
        = (p, '#' :: f.data) :=
      breakAt_append_stop (fun c hc => by simpa using hp c hc)
        (Or.inr ⟨'#', f.data, rfl, by simp⟩)
    simp only [fragSplit, hb]

theorem querySplit_split (p : List Char) (q : String)
    (hp : ∀ c ∈ p, c ≠ '?') :
    querySplit (p ++ (if q = "" then [] else '?' :: q.data)) = (p, q) := by
  by_cases hq : q = ""
  · subst hq
    rw [if_pos rfl, List.append_nil]
    have hb : breakAt (fun c => decide (c = '?')) p = (p, []) :=
      breakAt_all_not (fun c hc => by simpa using hp c hc)
    simp only [querySplit, hb]
  · rw [if_neg hq]
    have hb : breakAt (fun c => decide (c = '?')) (p ++ '?' :: q.data)
        = (p, '?' :: q.data) :=
      breakAt_append_stop (fun c hc => by simpa using hp c hc)
        (Or.inr ⟨'?', q.data, rfl, by simp⟩)
    simp only [querySplit, hb]

theorem urlunsplit_wf_data (u : UrlParts)
    (hsc : u.scheme ≠ "") (hn : u.netloc ≠ "")
    (hp : u.path = "" ∨ startsWithSlash u.path.data = true) :
    (urlunsplitH u).data =
      u.scheme.data ++ ':' :: '/' :: '/' :: (u.netloc.data ++ (u.path.data
        ++ ((if u.query = "" then [] else '?' :: u.query.data)
          ++ (if u.fragment = "" then [] else '#' :: u.fragment.data)))) := by
  have hcond : u.netloc ≠ "" ∨ startsWithSlashSlash u.path.data = true := Or.inl hn
  have hinner : ¬(u.path.data ≠ [] ∧ startsWithSlash u.path.data = false) := by
    rcases hp with hp | hp
    · intro hx
      exact hx.1 (by rw [hp])
    · intro hx
      rw [hp] at hx
      exact absurd hx.2 (by simp)
  simp only [urlunsplitH, if_pos hcond, if_neg hinner, if_pos hsc]
  by_cases hq : u.query = "" <;> by_cases hf : u.fragment = "" <;>
    simp [hq, hf, List.append_assoc]

theorem urlsplit_urlunsplit (u : UrlParts) (hwf : wfAbs u = true) (d : String) :
    urlsplitH (urlunsplitH u) d = u := by
  obtain ⟨hsch, hn, hnlc, hpshape, hpc, hqc, hnlClean, hpClean, hqClean, hfClean⟩ :=
    wfAbs_parts hwf
  have hscne : u.scheme ≠ "" := by
    rcases hsch with h | h <;> rw [h] <;> decide
  have hsdne : u.scheme.data ≠ [] := by
    rcases hsch with h | h <;> rw [h] <;> decide
  have hdata := urlunsplit_wf_data u hscne hn hpshape
  have hschClean : ∀ x ∈ u.scheme.data, isUnsafeUrlByte x = false := by
    rcases hsch with h | h <;> rw [h] <;> decide
  have hclean : ∀ c ∈ (urlunsplitH u).data, isUnsafeUrlByte c = false := by
    rw [hdata]
    intro c hc
    rcases List.mem_append.mp hc with hc | hc
    · exact hschClean c hc
    rcases List.mem_cons.mp hc with rfl | hc
    · decide
    rcases List.mem_cons.mp hc with rfl | hc
    · decide
    rcases List.mem_cons.mp hc with rfl | hc
    · decide
    rcases List.mem_append.mp hc with hc | hc
    · exact hnlClean c hc
    rcases List.mem_append.mp hc with hc | hc
    · exact hpClean c hc
    rcases List.mem_append.mp hc with hc | hc
    · by_cases hq : u.query = ""
      · rw [if_pos hq] at hc
        cases hc
      · rw [if_neg hq] at hc
        rcases List.mem_cons.mp hc with rfl | hc
        · decide
        · exact hqClean c hc
    · by_cases hf : u.fragment = ""
      · rw [if_pos hf] at hc
        cases hc
      · rw [if_neg hf] at hc
        rcases List.mem_cons.mp hc with rfl | hc
        · decide
        · exact hfClean c hc
  have hsan : sanitizeUrl (urlunsplitH u).data = (urlunsplitH u).data := by
    refine sanitizeUrl_eq_self hclean ?_
    rw [hdata, headD_append_of_ne_nil _ _ hsdne]
    rcases hsch with h | h <;> rw [h] <;> decide
  have hs1 : schemeSplit (sanitizeUrl (urlunsplitH u).data) d
      = (u.scheme, '/' :: '/' :: (u.netloc.data ++ (u.path.data ++
          ((if u.query = "" then [] else '?' :: u.query.data)
            ++ (if u.fragment = "" then [] else '#' :: u.fragment.data))))) := by
    rw [hsan, hdata]
    refine schemeSplit_of_valid u.scheme _ d ?_ ?_ ?_ ?_ ?_ <;>
      rcases hsch with h | h <;> rw [h] <;> decide
  have hs2 : netlocSplit ('/' :: '/' :: (u.netloc.data ++ (u.path.data ++
        ((if u.query = "" then [] else '?' :: u.query.data)
          ++ (if u.fragment = "" then [] else '#' :: u.fragment.data)))))
      = (u.netloc, u.path.data ++
          ((if u.query = "" then [] else '?' :: u.query.data)
            ++ (if u.fragment = "" then [] else '#' :: u.fragment.data))) := by
    refine netlocSplit_netloc u.netloc _ hnlc ?_
    rcases hpshape with hp0 | hps
    · have hpd : u.path.data = [] := by rw [hp0]
      by_cases hq : u.query = ""
      · by_cases hf : u.fragment = ""
        · left
          simp [hpd, hq, hf]
        · right
          exact ⟨'#', u.fragment.data, by simp [hpd, hq, hf], by tauto⟩
      · right
        exact ⟨'?', u.query.data ++
          (if u.fragment = "" then [] else '#' :: u.fragment.data),
          by simp [hpd, hq], by tauto⟩
    · obtain ⟨t, ht⟩ := startsWithSlash_cons hps
      right
      exact ⟨'/', t ++
        ((if u.query = "" then [] else '?' :: u.query.data)
          ++ (if u.fragment = "" then [] else '#' :: u.fragment.data)),
        by rw [ht]; simp, by tauto⟩
  have hs3 : fragSplit (u.path.data ++
        ((if u.query = "" then [] else '?' :: u.query.data)
          ++ (if u.fragment = "" then [] else '#' :: u.fragment.data)))
      = (u.path.data ++ (if u.query = "" then [] else '?' :: u.query.data),
          u.fragment) := by
    rw [← List.append_assoc]
    refine fragSplit_split _ u.fragment ?_
    intro c hc
    rcases List.mem_append.mp hc with h | h
    · exact (hpc c h).2
    · by_cases hq : u.query = ""
      · rw [if_pos hq] at h
        cases h
      · rw [if_neg hq] at h
        rcases List.mem_cons.mp h with rfl | h
        · decide
        · exact hqc c h
  have hs4 : querySplit (u.path.data ++
        (if u.query = "" then [] else '?' :: u.query.data))
      = (u.path.data, u.query) := by
    refine querySplit_split _ u.query ?_
    intro c hc
    exact (hpc c hc).1
  simp only [urlsplitH, hs1, hs2, hs3, hs4]

theorem urljoin_absolute (base : String) (u : UrlParts) (hwf : wfAbs u = true) :
    urljoinH base (urlunsplitH u) = urlunsplitH u := by
  obtain ⟨hsch, hn, hnlc, hpshape, hpc, hqc, hnlClean, hpClean, hqClean, hfClean⟩ :=
    wfAbs_parts hwf
  have hscne : u.scheme ≠ "" := by
    rcases hsch with h | h <;> rw [h] <;> decide
  have hne : urlunsplitH u ≠ "" := by
    intro he
    have hd : (urlunsplitH u).data = [] := by rw [he]
    rw [urlunsplit_wf_data u hscne hn hpshape] at hd
    simp at hd
  by_cases hbase : base = ""
  · rw [hbase]
    unfold urljoinH
    rw [if_pos rfl]
  · unfold urljoinH
    rw [if_neg hbase, if_neg hne]
    simp only [urlsplit_urlunsplit u hwf]
    by_cases hsb : u.scheme = (urlsplitH base "").scheme
    · rw [if_neg, if_pos]
      · constructor
        · rcases hsch with h | h <;> rw [h] <;> decide
        · exact hn
      · rintro (h | h)
        · exact h hsb
        · rcases hsch with h' | h' <;> rw [h'] at h <;> exact absurd h (by decide)
    · rw [if_pos (Or.inl hsb)]

theorem urljoin_empty_right (base : String) : urljoinH base "" = base := by
  unfold urljoinH
  by_cases hb : base = ""
  · rw [if_pos hb]
    exact hb.symm
  · rw [if_neg hb, if_pos rfl]

theorem pyStrip_all_space {s : String} (h : s.data.all isPySpace = true) :
    pyStrip s = "" := by
  have hall : ∀ c ∈ s.data, isPySpace c = true := List.all_eq_true.mp h
  have h1 : s.data.dropWhile isPySpace = [] := List.dropWhile_eq_nil_iff.mpr hall
  show String.mk (pyStripL s.data) = ""
  rw [pyStripL, h1]
  rfl

theorem collectTexts_eq (l : List Node) :
    collectTexts l = (l.map (fun n => getText n "")).filter (fun s => decide (s ≠ "")) := by
  induction l with
  | nil => rfl
  | cons n rest ih =>
    by_cases h : getText n "" = ""
    · simp [collectTexts, h, ih]
    · simp [collectTexts, h, ih]

theorem linksLoop_total (base : String) (l : List Node) :
    (linksLoop base l).total_links = l.length := by
  induction l with
  | nil => rfl
  | cons n rest ih =>
    by_cases h : linkIsInternal base (linkRecordOf base n) = true
    · simp [linksLoop, h, ih]
    · simp [linksLoop, h, ih]

theorem linksLoop_internal (base : String) (l : List Node) :
    (linksLoop base l).internal_links
      = (l.map (linkRecordOf base)).filter (linkIsInternal base) := by
  induction l with
  | nil => rfl
  | cons n rest ih =>
    by_cases h : linkIsInternal base (linkRecordOf base n) = true
    · simp [linksLoop, h, ih]
    · simp [linksLoop, h, ih, Bool.not_eq_true]

theorem linksLoop_external (base : String) (l : List Node) :
    (linksLoop base l).external_links
      = (l.map (linkRecordOf base)).filter (fun r => !linkIsInternal base r) := by
  induction l with
  | nil => rfl
  | cons n rest ih =>
    by_cases h : linkIsInternal base (linkRecordOf base n) = true
    · simp [linksLoop, h, ih]
    · simp [linksLoop, h, ih, Bool.not_eq_true]

theorem linksLoop_internal_count (base : String) (l : List Node) :
    (linksLoop base l).internal_count = (linksLoop base l).internal_links.length := by
  induction l with
  | nil => rfl
  | cons n rest ih =>
    by_cases h : linkIsInternal base (linkRecordOf base n) = true
    · simp [linksLoop, h, ih]
    · simp [linksLoop, h, ih]

theorem linksLoop_external_count (base : String) (l : List Node) :
    (linksLoop base l).external_count = (linksLoop base l).external_links.length := by
  induction l with
  | nil => rfl
  | cons n rest ih =>
    by_cases h : linkIsInternal base (linkRecordOf base n) = true
    · simp [linksLoop, h, ih]
    · simp [linksLoop, h, ih]

theorem length_filter_add_length_filter_not {α : Type} (p : α → Bool) (l : List α) :
    (l.filter p).length + (l.filter (fun x => !p x)).length = l.length := by
  induction l with
  | nil => rfl
  | cons x rest ih =>
    by_cases h : p x = true
    · simp [List.filter_cons, h, ← ih]
      omega
    · simp [List.filter_cons, h, Bool.not_eq_true, ← ih]
      omega

theorem imagesLoop1_length (base : String) (l : List Node) :
    (imagesLoop1 base l).length = l.length := by
  induction l with
  | nil => rfl
  | cons n rest ih => simp [imagesLoop1, ih]

theorem imagesLoop2_length (base : String) (l : List Node) :
    (imagesLoop2 base l).length = l.length := by
  induction l with
  | nil => rfl
  | cons n rest ih => simp [imagesLoop2, ih]

theorem lookup_upsert_self (k : String) (v : Option String)
    (d : List (String × Option String)) :
    List.lookup k (upsert k v d) = some v := by
  induction d with
  | nil => simp [upsert, List.lookup]
  | cons kv rest ih =>
    obtain ⟨k', v'⟩ := kv
    by_cases h : k' = k
    · simp [upsert, h, List.lookup]
    · have hb : (k == k') = false := by simpa using Ne.symm h
      simp [upsert, h, List.lookup, hb, ih]

theorem lookup_upsert_ne (k k' : String) (v : Option String)
    (d : List (String × Option String)) (h : k' ≠ k) :
    List.lookup k' (upsert k v d) = List.lookup k' d := by
  induction d with
  | nil =>
    have hb : (k' == k) = false := by simpa using h
    simp [upsert, List.lookup, hb]
  | cons kv rest ih =>
    obtain ⟨k₀, v₀⟩ := kv
    by_cases h0 : k₀ = k
    · subst h0
      have hb : (k' == k₀) = false := by simpa using h
      simp [upsert, List.lookup, hb]
    · by_cases h1 : k' = k₀
      · have hb : (k' == k₀) = true := by simpa using h1
        simp [upsert, h0, List.lookup, hb]
      · have hb : (k' == k₀) = false := by simpa using h1
        simp [upsert, h0, List.lookup, hb, ih]

theorem collectTexts_ne_empty (l : List Node) : "" ∉ collectTexts l := by
  rw [collectTexts_eq]
  intro hmem
  have := (List.mem_filter.mp hmem).2
  simp at this

theorem lookup_processMetas (ms : List Node) (k : String) :
    List.lookup k (processMetas ms)
      = (ms.filterMap (fun m =>
          if metaKey m = some k then some (m.attr? "content") else none)).getLast? := by
  induction ms using List.reverseRecOn with
  | nil => rfl
  | append_singleton l m ih =>
    have hfold : processMetas (l ++ [m])
        = (match metaKey m with
           | some k' => upsert k' (m.attr? "content") (processMetas l)
           | none => processMetas l) := by
      simp [processMetas, List.foldl_append]
    rw [hfold, List.filterMap_append]
    cases hk : metaKey m with
    | none => simp [hk, ih]
    | some k' =>
      by_cases hkk : k' = k
      · subst hkk
        rw [lookup_upsert_self]
        simp [hk]
      · rw [lookup_upsert_ne _ _ _ _ (fun hh => hkk hh.symm)]
        simp [hk, hkk, ih]

/-! ## Claim theorems -/

/-- C1: the claim says `extract_images_info` resolves a relative `src`
against `base_url` per RFC 3986, and in particular that base
`https://example.com/blog/` with `src="../logo.png"` yields
`https://example.com/logo.png`. The free-function implementation in
`website_analyzer.py` instead concatenates `base_url + src` whenever the
base ends in `/`, producing `https://example.com/blog/../logo.png` at
exactly that input; the class-based implementation in
`website_analyzer2.py` produces the claimed RFC 3986 result. -/
theorem claim_C1_images_resolution_bug :
    extract_images_info1 [Node.elem "img" [("src", "../logo.png")] []]
        "https://example.com/blog/"
      = ([{ src := some "https://example.com/blog/../logo.png", alt := "",
            width := none, height := none }], 1)
    ∧ extract_images_info2 [Node.elem "img" [("src", "../logo.png")] []]
        "https://example.com/blog/"
      = ([{ src := some "https://example.com/logo.png", alt := "",
            width := none, height := none }], 1) :=
  ⟨rfl, rfl⟩

/-- C2: the claim says the free-function and class-based implementations
produce equal results for each pipeline stage, in particular for
`extract_images_info`. On base `https://example.com/blog/` with
`src="/icon.png"` the two `extract_images_info` variants disagree: the
free-function version concatenates (yielding a double slash), the
class-based version resolves with `urljoin`. -/
theorem claim_C2_implementations_diverge :
    extract_images_info1 [Node.elem "img" [("src", "/icon.png")] []]
        "https://example.com/blog/"
      = ([{ src := some "https://example.com/blog//icon.png", alt := "",
            width := none, height := none }], 1)
    ∧ extract_images_info2 [Node.elem "img" [("src", "/icon.png")] []]
        "https://example.com/blog/"
      = ([{ src := some "https://example.com/icon.png", alt := "",
            width := none, height := none }], 1)
    ∧ (decide ((extract_images_info1 [Node.elem "img" [("src", "/icon.png")] []]
          "https://example.com/blog/")
        = (extract_images_info2 [Node.elem "img" [("src", "/icon.png")] []]
          "https://example.com/blog/"))) = false :=
  ⟨rfl, rfl, rfl⟩

/-- C5: when the fetch step fails (`fetch_html` returns `None`),
`analyze_website` of either file returns exactly the failure record
`{error: "Could not fetch or parse " + url}` and no extractor output;
on success it returns the populated variant; the two variants are
mutually exclusive by construction. -/
theorem claim_C5_fetch_failure :
    (∀ url : String, analyze_website1 none url
      = AnalysisResult.error ("Could not fetch or parse " ++ url))
    ∧ (∀ url : String, analyze_website2 none url
      = AnalysisResult.error ("Could not fetch or parse " ++ url))
    ∧ (∀ (d : Doc) (url : String),
        analyze_website1 (some d) url = AnalysisResult.ok (analyzeDoc1 url d))
    ∧ (∀ (d : Doc) (url : String),
        analyze_website2 (some d) url = AnalysisResult.ok (analyzeDoc2 url d))
    ∧ (∀ r : AnalysisResult, (isErrorResult r && isDataResult r) = false) :=
  ⟨fun _ => rfl, fun _ => rfl, fun _ _ => rfl, fun _ _ => rfl,
    fun r => by cases r <;> rfl⟩

/-- C9: in both implementations the `total` returned by
`extract_images_info` equals the number of `<img>` elements in the
document (with or without `src`/`alt` attributes) and equals the length
of the returned record list. -/
theorem claim_C9_image_totals (d : Doc) (base : String) :
    (extract_images_info1 d base).2 = (findAllDoc d "img").length
    ∧ (extract_images_info1 d base).1.length = (findAllDoc d "img").length
    ∧ (extract_images_info2 d base).2 = (findAllDoc d "img").length
    ∧ (extract_images_info2 d base).1.length = (findAllDoc d "img").length := by
  refine ⟨rfl, ?_, rfl, ?_⟩
  · exact imagesLoop1_length base (findAllDoc d "img")
  · exact imagesLoop2_length base (findAllDoc d "img")

/-- C3: the claim says all four content metrics are zero when the
document has no `<body>`. A document consisting of one
`<link rel="stylesheet">` element has no `<body>`, yet both
implementations report `stylesheet_count = 1`, because the stylesheet
and script counts are computed over the whole document regardless of
`<body>`. -/
theorem claim_C3_counterexample :
    (findFirstDoc [Node.elem "link" [("rel", "stylesheet"), ("href", "s.css")] []]
        "body").isNone = true
    ∧ (analyzeDoc1 "http://example.com/"
        [Node.elem "link" [("rel", "stylesheet"), ("href", "s.css")] []]).stylesheet_count = 1
    ∧ (analyzeDoc2 "http://example.com/"
        [Node.elem "link" [("rel", "stylesheet"), ("href", "s.css")] []]).stylesheet_count = 1 :=
  ⟨rfl, rfl, rfl⟩

/-- C3 (amended): for every document with no `<body>` element, the
body-derived metrics `word_count` and `paragraph_count` of the analysis
result are zero in both implementations; `stylesheet_count` and
`script_count` are computed over the whole document and may be
non-zero. -/
theorem claim_C3_no_body_metrics (d : Doc) (url : String)
    (h : findFirstDoc d "body" = none) :
    (analyzeDoc1 url d).word_count = 0
    ∧ (analyzeDoc1 url d).paragraph_count = 0
    ∧ (analyzeDoc2 url d).word_count = 0
    ∧ (analyzeDoc2 url d).paragraph_count = 0 := by
  have hb : bodyMetrics d = (0, 0) := by rw [bodyMetrics, h]
  refine ⟨?_, ?_, ?_, ?_⟩ <;> simp [analyzeDoc1, analyzeDoc2, hb]

theorem claim_C3_witness :
    findFirstDoc ([] : Doc) "body" = none
    ∧ (analyzeDoc1 "http://example.com/" ([] : Doc)).word_count = 0
    ∧ (analyzeDoc1 "http://example.com/" ([] : Doc)).paragraph_count = 0 :=
  ⟨rfl, (claim_C3_no_body_metrics [] "http://example.com/" rfl).1,
    (claim_C3_no_body_metrics [] "http://example.com/" rfl).2.1⟩

/-- C4: `extract_links_info` (identical in both files) considers exactly
the `<a>` elements carrying an `href`; a considered link is put in the
internal bucket iff the netloc of its href resolved against the base
equals the base's netloc, and otherwise in the external bucket; the
internal and external counts sum to `total_links`. -/
theorem claim_C4_link_classification (d : Doc) (base : String) :
    (extract_links_info d base).total_links
      = ((findAllDoc d "a").filter (fun n => (n.attr? "href").isSome)).length
    ∧ (extract_links_info d base).internal_links
      = ((consideredLinks d).map (linkRecordOf base)).filter
          (fun r => decide ((urlsplitH r.href "").netloc = (urlsplitH base "").netloc))
    ∧ (extract_links_info d base).external_links
      = ((consideredLinks d).map (linkRecordOf base)).filter
          (fun r => !(decide ((urlsplitH r.href "").netloc = (urlsplitH base "").netloc)))
    ∧ (extract_links_info d base).internal_count + (extract_links_info d base).external_count
      = (extract_links_info d base).total_links := by
  refine ⟨?_, ?_, ?_, ?_⟩
  · rw [extract_links_info, linksLoop_total]
    rfl
  · rw [extract_links_info, linksLoop_internal]
    rfl
  · rw [extract_links_info, linksLoop_external]
    rfl
  · rw [extract_links_info, linksLoop_internal_count, linksLoop_external_count,
      linksLoop_internal, linksLoop_external, linksLoop_total]
    rw [length_filter_add_length_filter_not (linkIsInternal base)
      ((consideredLinks d).map (linkRecordOf base))]
    exact List.length_map _ _

/-- C6: the claim says resolution as used for images and links returns
every already-absolute URL unchanged for every base. For links, every
href is passed through `urljoin`, which rewrites the protocol-relative
URL `//cdn.example.com/lib.js` — absolute by the image extractor's own
test (it starts with `//`) — to `http://cdn.example.com/lib.js` against
an `http` base, so the claim fails as stated. -/
theorem claim_C6_counterexample :
    pyStartsWith "//cdn.example.com/lib.js" "//" = true
    ∧ urljoinH "http://example.com/" "//cdn.example.com/lib.js"
      = "http://cdn.example.com/lib.js"
    ∧ (decide (("http://cdn.example.com/lib.js" : String)
        = "//cdn.example.com/lib.js")) = false :=
  ⟨rfl, rfl, rfl⟩

/-- C6 (amended): image-side resolution leaves every src starting with
`http://`, `https://` or `//` unchanged in both implementations (it is
simply skipped); link-side resolution (`urljoin`) leaves an absolute URL
unchanged provided it has an explicit `http` or `https` scheme and
well-formed components — nonempty ASCII authority free of `/`, `?`, `#`
and brackets, a path that is empty or `/`-rooted and free of `?`, `#`,
a query free of `#`, no dangling empty `?`/`#` marker, and no component
containing a tab, CR or LF. Outside this shape `urljoin` rewrites:
protocol-relative `//…` URLs get the base's scheme, a bare trailing `?`
or `#` is dropped, and `urlsplit` deletes every tab, CR and LF. -/
theorem claim_C6_absolute_resolution (base src : String) (u : UrlParts)
    (habs : (pyStartsWith src "http://" || pyStartsWith src "https://" ||
      pyStartsWith src "//") = true)
    (hwf : wfAbs u = true) :
    resolveImgSrc1 base src = src
    ∧ resolveImgSrc2 base src = src
    ∧ urljoinH base (urlunsplitH u) = urlunsplitH u := by
  refine ⟨?_, ?_, urljoin_absolute base u hwf⟩
  · rw [resolveImgSrc1, if_neg]
    rintro ⟨-, hc⟩
    rw [habs] at hc
    exact Bool.noConfusion hc
  · rw [resolveImgSrc2, if_neg]
    rintro ⟨-, hc⟩
    rw [habs] at hc
    exact Bool.noConfusion hc

theorem claim_C6_witness :
    ((pyStartsWith "https://a.com/x" "http://" || pyStartsWith "https://a.com/x" "https://" ||
        pyStartsWith "https://a.com/x" "//") = true)
    ∧ (wfAbs ⟨"https", "other.com", "/p", "q", "frag"⟩ = true)
    ∧ resolveImgSrc1 "https://example.com/" "https://a.com/x" = "https://a.com/x"
    ∧ urljoinH "https://example.com/"
        (urlunsplitH ⟨"https", "other.com", "/p", "q", "frag"⟩)
      = urlunsplitH ⟨"https", "other.com", "/p", "q", "frag"⟩ := by
  obtain ⟨h1, h2, h3⟩ := claim_C6_absolute_resolution "https://example.com/"
    "https://a.com/x" ⟨"https", "other.com", "/p", "q", "frag"⟩ (by decide) (by decide)
  exact ⟨by decide, by decide, h1, h3⟩

/-- C7: in both implementations, when the document has a `<title>`
element, the extracted meta dictionary maps `title` to its stripped
text, overwriting any `<meta name="title">` entry; and for every key,
the meta loop stores the content of the last `<meta>` element carrying
that key, later elements overwriting earlier ones. -/
theorem claim_C7_meta_title (d : Doc) (t : Node)
    (h : findFirstDoc d "title" = some t) :
    List.lookup "title" (extract_meta_tags d) = some (some (getText t ""))
    ∧ (∀ k : String, List.lookup k (processMetas (findAllDoc d "meta"))
        = ((findAllDoc d "meta").filterMap (fun m =>
            if metaKey m = some k then some (m.attr? "content") else none)).getLast?)
    ∧ (∀ k : String, k ≠ "title" →
        List.lookup k (extract_meta_tags d)
          = ((findAllDoc d "meta").filterMap (fun m =>
              if metaKey m = some k then some (m.attr? "content") else none)).getLast?) := by
  refine ⟨?_, fun k => lookup_processMetas _ k, fun k hk => ?_⟩
  · rw [extract_meta_tags, h, lookup_upsert_self]
  · rw [extract_meta_tags, h, lookup_upsert_ne _ _ _ _ hk, lookup_processMetas]

theorem claim_C7_witness :
    findFirstDoc
        [Node.elem "meta" [("name", "title"), ("content", "Old")] [],
          Node.elem "meta" [("name", "d"), ("content", "x")] [],
          Node.elem "meta" [("name", "d"), ("content", "y")] [],
          Node.elem "title" [] [Node.text " Real Title "]] "title"
      = some (Node.elem "title" [] [Node.text " Real Title "])
    ∧ List.lookup "title" (extract_meta_tags
        [Node.elem "meta" [("name", "title"), ("content", "Old")] [],
          Node.elem "meta" [("name", "d"), ("content", "x")] [],
          Node.elem "meta" [("name", "d"), ("content", "y")] [],
          Node.elem "title" [] [Node.text " Real Title "]])
      = some (some "Real Title")
    ∧ List.lookup "d" (extract_meta_tags
        [Node.elem "meta" [("name", "title"), ("content", "Old")] [],
          Node.elem "meta" [("name", "d"), ("content", "x")] [],
          Node.elem "meta" [("name", "d"), ("content", "y")] [],
          Node.elem "title" [] [Node.text " Real Title "]])
      = some (some "y") :=
  ⟨rfl,
    (claim_C7_meta_title
      [Node.elem "meta" [("name", "title"), ("content", "Old")] [],
        Node.elem "meta" [("name", "d"), ("content", "x")] [],
        Node.elem "meta" [("name", "d"), ("content", "y")] [],
        Node.elem "title" [] [Node.text " Real Title "]]
      (Node.elem "title" [] [Node.text " Real Title "]) rfl).1,
    rfl⟩

/-- C8: each entry of the heading map pairs a level tag with exactly the
stripped texts of that level's elements in document order, entries with
empty stripped text omitted, so no recorded heading text is the empty
string (shared by both implementations). -/
theorem claim_C8_headings (d : Doc) (tag : String) (texts : List String)
    (h : (tag, texts) ∈ extract_headings d) :
    texts = ((findAllDoc d tag).map (fun n => getText n "")).filter
        (fun s => decide (s ≠ ""))
    ∧ "" ∉ texts := by
  obtain ⟨i, hi, heq⟩ := List.mem_map.mp h
  simp only at heq
  obtain ⟨rfl, rfl⟩ := (Prod.mk.injEq _ _ _ _).mp heq
  exact ⟨collectTexts_eq _, collectTexts_ne_empty _⟩

theorem claim_C8_witness :
    ("h1", ["Hello"]) ∈ extract_headings
        [Node.elem "h1" [] [Node.text "Hello"], Node.elem "h1" [] [],
          Node.elem "h2" [] [Node.text "World"]]
    ∧ "" ∉ (["Hello"] : List String) :=
  ⟨by decide,
    (claim_C8_headings
      [Node.elem "h1" [] [Node.text "Hello"], Node.elem "h1" [] [],
        Node.elem "h2" [] [Node.text "World"]] "h1" ["Hello"] (by decide)).2⟩

/-- C10: an `<a>` element whose `href` is empty or whitespace-only is
still considered (so it counts toward `total_links`), its stripped href
resolves to exactly the base URL (`urljoin(base, '') == base`), and it
is classified internal, landing in `internal_links`. -/
theorem claim_C10_blank_href (d : Doc) (base : String) (n : Node) (href : String)
    (hmem : n ∈ findAllDoc d "a")
    (hattr : n.attr? "href" = some href)
    (hws : href.data.all isPySpace = true) :
    n ∈ consideredLinks d
    ∧ linkRecordOf base n = { href := base, text := getText n "" }
    ∧ linkIsInternal base (linkRecordOf base n) = true
    ∧ ({ href := base, text := getText n "" } : LinkRecord)
        ∈ (extract_links_info d base).internal_links := by
  have hcons : n ∈ consideredLinks d := by
    rw [consideredLinks]
    exact List.mem_filter.mpr ⟨hmem, by rw [hattr]; rfl⟩
  have hrec : linkRecordOf base n = { href := base, text := getText n "" } := by
    rw [linkRecordOf, hattr]
    simp only [Option.getD_some]
    rw [pyStrip_all_space hws, urljoin_empty_right]
  have hint : linkIsInternal base (linkRecordOf base n) = true := by
    rw [hrec, linkIsInternal]
    simp
  refine ⟨hcons, hrec, hint, ?_⟩
  rw [extract_links_info, linksLoop_internal]
  refine List.mem_filter.mpr ⟨List.mem_map.mpr ⟨n, hcons, hrec⟩, ?_⟩
  have h2 := hint
  rw [hrec] at h2
  exact h2

theorem claim_C10_witness :
    (Node.elem "a" [("href", "  ")] [Node.text "x"]).attr? "href" = some "  "
    ∧ ("  ".data.all isPySpace) = true
    ∧ ({ href := "https://example.com/base",
          text := getText (Node.elem "a" [("href", "  ")] [Node.text "x"]) "" } : LinkRecord)
        ∈ (extract_links_info [Node.elem "a" [("href", "  ")] [Node.text "x"]]
            "https://example.com/base").internal_links :=
  ⟨rfl, by decide,
    (claim_C10_blank_href [Node.elem "a" [("href", "  ")] [Node.text "x"]]
      "https://example.com/base" (Node.elem "a" [("href", "  ")] [Node.text "x"]) "  "
      (by
        rw [show findAllDoc [Node.elem "a" [("href", "  ")] [Node.text "x"]] "a"
            = [Node.elem "a" [("href", "  ")] [Node.text "x"]] from rfl]
        exact List.mem_singleton.mpr rfl)
      rfl (by decide)).2.2.2⟩
